import Mathlib

/-!
Verification development for the mcp-server-prototype repository.

The development shallowly embeds the operation-resolution and invocation
engine: the runtime dispatch path (`invokeStripeByOperationId` and the tool
handlers in `server.ts`) and the code-generation path
(`generateOperationWrapper` and its helpers in the generator script).

Strings are modelled as lists of character codes (`List Nat`); the inputs of
interest are ASCII.  JavaScript objects (parameter bags) are modelled as
association lists with unique keys; `delete obj[k]` becomes key removal and
`{...obj}` becomes a copy.  The generator emits source text; its emitted
wrapper bodies are modelled by the backend dispatch they encode (which SDK
resource and method the generated code calls, and which identifier key the
generated destructuring removes).
-/

namespace StripeMcp

/-- Character codes of a Lean string literal (used to write concrete inputs). -/
def strCodes (s : String) : List Nat := s.toList.map Char.toNat

/-- ASCII upper-case test, the `[A-Z]` class of the source regexes. -/
def upperB (n : Nat) : Bool := decide (65 ≤ n ∧ n ≤ 90)

/-- ASCII lower-casing, the effect of JS `toLowerCase` on the ASCII
alphanumeric inputs this engine receives. -/
def lowerChar (n : Nat) : Nat := if 65 ≤ n ∧ n ≤ 90 then n + 32 else n

/-- `toLowerCase` over a whole string. -/
def lowerStr (l : List Nat) : List Nat := l.map lowerChar

/-- JS `replace(/s$/, "")`: drop a single trailing `s` (code 115) if present. -/
def stripS (l : List Nat) : List Nat :=
  if l.getLast? = some 115 then l.dropLast else l

/-- JS `endsWith("s")`. -/
def endsWithS (l : List Nat) : Bool := l.getLast? == some 115

/-- Accumulator form of the capital-boundary split.  Mirrors JS
`split(/(?=[A-Z])/)`: a new token starts before every upper-case letter,
except that a zero-width match at position 0 produces no empty token. -/
def splitCapsAux : List Nat → List Nat → List (List Nat)
  | [], acc => [acc.reverse]
  | c :: cs, acc =>
    if upperB c && !acc.isEmpty then acc.reverse :: splitCapsAux cs [c]
    else splitCapsAux cs (c :: acc)

/-- JS `resourcePath.split(/(?=[A-Z])/)`. -/
def splitCaps (l : List Nat) : List (List Nat) := splitCapsAux l []

/-- Drop `p` from the front of `l` if it is a prefix of `l`. -/
def tryDrop : List Nat → List Nat → Option (List Nat)
  | [], l => some l
  | _ :: _, [] => none
  | p :: ps, c :: cs => if p = c then tryDrop ps cs else none

/-- JS `operationId.replace(/^(Get|Post|Put|Patch|Delete)/, "")`: remove the
first alternative that matches at the start, else leave unchanged. -/
def dropVerb (l : List Nat) : List Nat :=
  match tryDrop (strCodes "Get") l with
  | some r => r
  | none =>
    match tryDrop (strCodes "Post") l with
    | some r => r
    | none =>
      match tryDrop (strCodes "Put") l with
      | some r => r
      | none =>
        match tryDrop (strCodes "Patch") l with
        | some r => r
        | none =>
          match tryDrop (strCodes "Delete") l with
          | some r => r
          | none => l

/-- A well-formed capitalized word token: nonempty, leading capital, no
further capitals (the tokens produced by the operation-identifier grammar). -/
def validTok : List Nat → Bool
  | [] => false
  | c :: cs => upperB c && cs.all (fun x => !upperB x)

/-- The five HTTP-verb prefixes of the operation-identifier grammar. -/
inductive HVerb where
  | hget | hpost | hput | hpatch | hdelete
deriving DecidableEq, Repr

/-- Codes of a verb prefix. -/
def verbCodes : HVerb → List Nat
  | .hget => strCodes "Get"
  | .hpost => strCodes "Post"
  | .hput => strCodes "Put"
  | .hpatch => strCodes "Patch"
  | .hdelete => strCodes "Delete"

/-- Output of the operationId parser in `invokeStripeByOperationId`
(`server.ts`) and `testOperationId` (`scripts/test-operationid.js`). -/
structure ParseOut where
  parts : List (List Nat)
  isDetail : Bool
  mainResource : List Nat
deriving DecidableEq, Repr

/-- The operationId parsing steps of `invokeStripeByOperationId`:
strip the verb prefix, split at capital boundaries, compare the singularized
first token with the second token, and build the resource-name candidate. -/
def parseOp (opId : List Nat) : ParseOut :=
  let resourcePath := dropVerb opId
  let parts := splitCaps resourcePath
  let firstPartSingular := stripS (lowerStr (parts.headD []))
  let secondPart := lowerStr ((parts.get? 1).getD [])
  let isDetail := decide (1 < parts.length) && decide (firstPartSingular = secondPart)
  let mainResource :=
    if isDetail then lowerStr (parts.headD [])
    else lowerStr (parts.headD []) ++ (parts.drop 1).flatten
  ⟨parts, isDetail, mainResource⟩

/-! ## Schema Index (`server.ts` path filtering, lookup and enumeration) -/

/-- One declared parameter of an operation (`name` and the `in` location
field of the OpenAPI description). -/
structure ParamDecl where
  name : List Nat
  inLoc : List Nat
deriving DecidableEq, Repr

/-- The fields of an OpenAPI operation object that the engine reads. -/
structure OpSpec where
  operationId : List Nat
  parameters : List ParamDecl
deriving DecidableEq, Repr

/-- HTTP methods probed by the engine, in the order of its `httpMethods`
array `["get", "post", "put", "patch", "delete"]`. -/
inductive HttpMethod where
  | mGet | mPost | mPut | mPatch | mDelete
deriving DecidableEq, Repr

/-- One path item of the description: at most one operation per method. -/
structure PathItem where
  getOp : Option OpSpec := none
  postOp : Option OpSpec := none
  putOp : Option OpSpec := none
  patchOp : Option OpSpec := none
  deleteOp : Option OpSpec := none
deriving DecidableEq, Repr

/-- `pathItem[method]`. -/
def methodOp (item : PathItem) : HttpMethod → Option OpSpec
  | .mGet => item.getOp
  | .mPost => item.postOp
  | .mPut => item.putOp
  | .mPatch => item.patchOp
  | .mDelete => item.deleteOp

/-- Iteration order of the `httpMethods` array. -/
def methodsOrder : List HttpMethod :=
  [.mGet, .mPost, .mPut, .mPatch, .mDelete]

/-- The loaded API description: `Object.entries(spec.paths)` in insertion
order, each entry a path string with its path item. -/
abbrev SpecDoc : Type := List (List Nat × PathItem)

/-- The collection-shape regex `topLevelRegex = /^\/v1\/[^\/]+$/`:
`/v1/` followed by a nonempty run of non-`/` characters. -/
def matchTop (p : List Nat) : Bool :=
  match p with
  | 47 :: 118 :: 49 :: 47 :: rest => !rest.isEmpty && rest.all (fun c => c ≠ 47)
  | _ => false

/-- The brace suffix of the detail-shape regex: `\x7b[^\x7d]+\x7d$`, i.e. an
opening brace, a nonempty run without a closing brace, then a closing brace
ending the string. -/
def braceTail (l : List Nat) : Bool :=
  match l with
  | 123 :: rest =>
    !rest.dropLast.isEmpty && rest.dropLast.all (fun c => c ≠ 125)
      && rest.getLast? == some 125
  | _ => false

/-- The detail-shape regex `detailLevelRegex = /^\/v1\/[^\/]+\/\x7b[^\x7d]+\x7d$/`:
`/v1/`, a nonempty segment without `/`, then `/`, then a braced nonempty
identifier segment closing the string. -/
def matchDetail (p : List Nat) : Bool :=
  match p with
  | 47 :: 118 :: 49 :: 47 :: rest =>
    let seg := rest.takeWhile (fun c => c ≠ 47)
    let remainder := rest.dropWhile (fun c => c ≠ 47)
    !seg.isEmpty &&
      (match remainder with
       | 47 :: tl => braceTail tl
       | _ => false)
  | _ => false

/-- A path is indexed iff it matches one of the two recognized shapes. -/
def shapeOk (p : List Nat) : Bool := matchTop p || matchDetail p

/-- The result record of `findOperationById`. -/
structure FoundOp where
  operation : OpSpec
  path : List Nat
  method : HttpMethod
deriving DecidableEq, Repr

/-- Scan the methods of one path item in `httpMethods` order for the first
operation whose `operationId` equals the target. -/
def findInItem (item : PathItem) (path : List Nat) (opId : List Nat) :
    Option FoundOp :=
  (methodsOrder.find? fun m =>
      match methodOp item m with
      | some op => decide (op.operationId = opId)
      | none => false).map
    fun m => ⟨(methodOp item m).getD ⟨[], []⟩, path, m⟩

/-- `findOperationById`: scan the indexed paths in order, skipping paths
whose shape is not recognized. -/
def findOperationById (doc : SpecDoc) (opId : List Nat) : Option FoundOp :=
  match doc with
  | [] => none
  | (path, item) :: rest =>
    if !matchTop path && !matchDetail path then findOperationById rest opId
    else
      match findInItem item path opId with
      | some f => some f
      | none => findOperationById rest opId

/-- The operationIds contributed by one path item, in method order
(skipping absent operations and falsy — empty — operationIds, as the JS
truthiness test `operation && operation.operationId` does). -/
def itemOps (item : PathItem) : List (List Nat) :=
  methodsOrder.filterMap fun m =>
    match methodOp item m with
    | some op => if op.operationId.isEmpty then none else some op.operationId
    | none => none

/-- `listAllOperationIds`: enumerate operationIds of all shape-matching
paths, in path order then method order. -/
def listAllOperationIds (doc : SpecDoc) : List (List Nat) :=
  match doc with
  | [] => []
  | (path, item) :: rest =>
    (if !matchTop path && !matchDetail path then [] else itemOps item)
      ++ listAllOperationIds rest

/-! ## Parameter bags and backend calls -/

/-- A JSON-ish parameter value. -/
inductive JVal where
  | vStr : List Nat → JVal
  | vNum : Int → JVal
  | vBool : Bool → JVal
  | vNull : JVal
deriving DecidableEq, Repr

/-- A JS object used as a parameter bag: association list, unique keys. -/
abbrev Bag : Type := List (List Nat × JVal)

/-- `bag[k]` (`none` models JS `undefined`). -/
def bagGet (b : Bag) (k : List Nat) : Option JVal :=
  (b.find? fun kv => decide (kv.1 = k)).map (·.2)

/-- `delete bag[k]` (equivalently the rest-destructuring `{k: _, ...rest}`):
remove the key. -/
def bagDel (b : Bag) (k : List Nat) : Bag :=
  b.filter fun kv => decide (kv.1 ≠ k)

/-- The parameter splitter shared by both modes: read the identifier under
the key, and remove the key from the body. -/
def splitBag (b : Bag) (k : List Nat) : Option JVal × Bag :=
  (bagGet b k, bagDel b k)

/-- The identifier key actually used: the declared path-parameter name when
present and truthy (nonempty), else the literal `id` — JS
`pathParamName ? ... : params.id` and `pathParamName || "id"`. -/
def idKey (pathParamName : Option (List Nat)) : List Nat :=
  match pathParamName with
  | some n => if n.isEmpty then strCodes "id" else n
  | none => strCodes "id"

/-- The declared path-parameter name of an operation:
`operation.parameters.find(p => p.in === "path")?.name`. -/
def declaredName (op : OpSpec) : Option (List Nat) :=
  (op.parameters.find? fun p => decide (p.inLoc = strCodes "path")).map (·.name)

/-- The identifier key an operation's invocation uses. -/
def declaredKey (op : OpSpec) : List Nat := idKey (declaredName op)

/-- The backend (SDK) call produced by dispatch: which resource, which
method, and — for identifier-taking methods — which identifier value
(`none` models passing JS `undefined`) and which remaining body. -/
inductive BackendCall where
  | retrieve0 (resource : List Nat) (params : Bag)
  | retrieve1 (resource : List Nat) (id : Option JVal) (params : Bag)
  | listCall (resource : List Nat) (params : Bag)
  | createCall (resource : List Nat) (params : Bag)
  | updateCall (resource : List Nat) (id : Option JVal) (params : Bag)
  | delCall (resource : List Nat) (id : Option JVal) (params : Bag)
  | cancelCall (resource : List Nat) (id : Option JVal) (params : Bag)
deriving DecidableEq, Repr

/-- The generic action a backend call performs. -/
inductive ActionKind where
  | aList | aRetrieve | aCreate | aUpdate | aDelete | aCancel
deriving DecidableEq, Repr

/-- Action of a backend call. -/
def callAction : BackendCall → ActionKind
  | .retrieve0 .. => .aRetrieve
  | .retrieve1 .. => .aRetrieve
  | .listCall .. => .aList
  | .createCall .. => .aCreate
  | .updateCall .. => .aUpdate
  | .delCall .. => .aDelete
  | .cancelCall .. => .aCancel

/-- The identifier argument of a backend call, when the called method takes
one (`some i`: the method is called with identifier `i`, where `i = none`
models `undefined`). -/
def callId : BackendCall → Option (Option JVal)
  | .retrieve0 .. => none
  | .listCall .. => none
  | .createCall .. => none
  | .retrieve1 _ i _ => some i
  | .updateCall _ i _ => some i
  | .delCall _ i _ => some i
  | .cancelCall _ i _ => some i

/-- Decidable equality on `Except`, so concrete invocation outcomes can be
checked by evaluation. -/
instance exceptDecEq {ε α : Type} [DecidableEq ε] [DecidableEq α] :
    DecidableEq (Except ε α) := fun a b =>
  match a, b with
  | .error e1, .error e2 =>
    if h : e1 = e2 then .isTrue (congrArg Except.error h)
    else .isFalse (fun hh => h (Except.error.inj hh))
  | .ok v1, .ok v2 =>
    if h : v1 = v2 then .isTrue (congrArg Except.ok h)
    else .isFalse (fun hh => h (Except.ok.inj hh))
  | .error _, .ok _ => .isFalse (fun hh => Except.noConfusion hh)
  | .ok _, .error _ => .isFalse (fun hh => Except.noConfusion hh)

/-! ## Runtime invocation (`invokeStripeByOperationId`) -/

/-- The faults `invokeStripeByOperationId` can raise before reaching the
backend (both are thrown `Error`s in the source). -/
inductive InvokeErr where
  | operationNotFound (opId : List Nat)
  | resourceNotFound (res : List Nat) (opId : List Nat)
deriving DecidableEq, Repr

/-- The `!mainResource.endsWith("s") || mainResource === "balance" ||
mainResource === "account"` singleton test of the runtime path. -/
def runtimeSingleton (mainResource : List Nat) : Bool :=
  !endsWithS mainResource
    || decide (mainResource = strCodes "balance")
    || decide (mainResource = strCodes "account")

/-- `invokeStripeByOperationId`: look up the operation, parse the
operationId, resolve the SDK resource (`known` is the set of resource names
the SDK object carries), split the parameter bag, and dispatch on the found
method — returning the backend call that the source performs, or the error
it throws first. -/
def invokeStripeByOperationId (doc : SpecDoc) (known : List (List Nat))
    (opId : List Nat) (parameters : Bag) : Except InvokeErr BackendCall :=
  match findOperationById doc opId with
  | none => .error (.operationNotFound opId)
  | some found =>
    let pr := parseOp opId
    let mainResource := pr.mainResource
    let isDetailOperation := pr.isDetail
    let isSingleton := runtimeSingleton mainResource
    if ¬ mainResource ∈ known then .error (.resourceNotFound mainResource opId)
    else
      let params : Bag := parameters
      let key := declaredKey found.operation
      match found.method with
      | .mGet =>
        if isSingleton then .ok (.retrieve0 mainResource params)
        else if isDetailOperation then
          .ok (.retrieve1 mainResource (bagGet params key) (bagDel params key))
        else .ok (.listCall mainResource params)
      | .mPost =>
        if isDetailOperation then
          .ok (.updateCall mainResource (bagGet params key) (bagDel params key))
        else .ok (.createCall mainResource params)
      | .mDelete =>
        .ok (.delCall mainResource (bagGet params key) (bagDel params key))
      | .mPatch =>
        .ok (.updateCall mainResource (bagGet params key) (bagDel params key))
      | .mPut =>
        .ok (.updateCall mainResource (bagGet params key) (bagDel params key))

/-! ## Heap-level model of the runtime invocation

`invokeStripeByOperationId` receives a reference to the caller's parameter
object, copies it (`const params = { ...(parameters || {}) }`), and performs
its `delete` statements on the copy only.  To state the frame property this
is modelled with an explicit store of objects indexed by references. -/

/-- A store of JS objects: reference ↦ bag. -/
abbrev Store : Type := List (Nat × Bag)

/-- Read the object behind a reference. -/
def storeGet (s : Store) (r : Nat) : Option Bag :=
  (s.find? fun e => decide (e.1 = r)).map (·.2)

/-- Overwrite the object behind a reference. -/
def storeSet (s : Store) (r : Nat) (b : Bag) : Store :=
  s.map fun e => if e.1 = r then (r, b) else e

/-- A reference unused by the store. -/
def freshRef (s : Store) : Nat := (s.map (·.1)).foldr max 0 + 1

/-- Allocate a new object: `const params = { ...bag }`. -/
def allocObj (s : Store) (b : Bag) : Nat × Store :=
  (freshRef s, (freshRef s, b) :: s)

/-- The identifier-branch statements on the internal copy:
`const id = params[key]; delete params[key];` — returns the updated store
together with the read identifier and the body now behind `pRef`. -/
def idBranch (s : Store) (pRef : Nat) (key : List Nat) :
    Store × Option JVal × Bag :=
  let cur := (storeGet s pRef).getD []
  let id := bagGet cur key
  let s2 := storeSet s pRef (bagDel cur key)
  (s2, id, bagDel cur key)

/-- `invokeStripeByOperationId` with the caller's parameter object held in a
store behind `callerRef`: the same control flow as the pure model, with the
shallow copy and the `delete` statements made explicit. -/
def invokeHeap (doc : SpecDoc) (known : List (List Nat)) (opId : List Nat)
    (callerRef : Nat) (s0 : Store) : Store × Except InvokeErr BackendCall :=
  match findOperationById doc opId with
  | none => (s0, .error (.operationNotFound opId))
  | some found =>
    let pr := parseOp opId
    let mainResource := pr.mainResource
    let isDetailOperation := pr.isDetail
    let isSingleton := runtimeSingleton mainResource
    if ¬ mainResource ∈ known then (s0, .error (.resourceNotFound mainResource opId))
    else
      let callerBag := (storeGet s0 callerRef).getD []
      let alloc := allocObj s0 callerBag
      let pRef := alloc.1
      let s1 := alloc.2
      let key := declaredKey found.operation
      match found.method with
      | .mGet =>
        if isSingleton then
          (s1, .ok (.retrieve0 mainResource ((storeGet s1 pRef).getD [])))
        else if isDetailOperation then
          let st := idBranch s1 pRef key
          (st.1, .ok (.retrieve1 mainResource st.2.1 st.2.2))
        else (s1, .ok (.listCall mainResource ((storeGet s1 pRef).getD [])))
      | .mPost =>
        if isDetailOperation then
          let st := idBranch s1 pRef key
          (st.1, .ok (.updateCall mainResource st.2.1 st.2.2))
        else (s1, .ok (.createCall mainResource ((storeGet s1 pRef).getD [])))
      | .mDelete =>
        let st := idBranch s1 pRef key
        (st.1, .ok (.delCall mainResource st.2.1 st.2.2))
      | .mPatch =>
        let st := idBranch s1 pRef key
        (st.1, .ok (.updateCall mainResource st.2.1 st.2.2))
      | .mPut =>
        let st := idBranch s1 pRef key
        (st.1, .ok (.updateCall mainResource st.2.1 st.2.2))

/-! ## Code-generation path (`generateOperationWrapper` and helpers) -/

/-- One lower-case ASCII letter, the `[a-z]` class of `/_([a-z])/g`. -/
def lowerAlphaB (n : Nat) : Bool := decide (97 ≤ n ∧ n ≤ 122)

/-- ASCII upper-casing of a lower-case letter. -/
def upperChar (n : Nat) : Nat := n - 32

/-- JS `replace(/_([a-z])/g, (_, c) => c.toUpperCase())`: snake_case to
camelCase, consuming each underscore that precedes a lower-case letter. -/
def camelize : List Nat → List Nat
  | [] => []
  | 95 :: c :: rest =>
    if lowerAlphaB c then upperChar c :: camelize rest
    else 95 :: camelize (c :: rest)
  | c :: rest => c :: camelize rest

/-- `pathToResourceName`: capture of `/^\/v1\/([^/]+)/` camelized, or the
empty string when the path does not match. -/
def pathToResourceName (path : List Nat) : List Nat :=
  match path with
  | 47 :: 118 :: 49 :: 47 :: rest => camelize (rest.takeWhile fun c => c ≠ 47)
  | _ => []

/-- The operation record the generator builds per endpoint
(`listAllOperations` in the generator script). -/
structure GenOp where
  operationId : List Nat
  path : List Nat
  method : HttpMethod
  parameters : List ParamDecl
deriving DecidableEq, Repr

/-- The generator's `listAllOperations`: same shape filter as the Schema
Index, collecting full operation records. -/
def listAllOperations (doc : SpecDoc) : List GenOp :=
  match doc with
  | [] => []
  | (path, item) :: rest =>
    (if !matchTop path && !matchDetail path then []
     else methodsOrder.filterMap fun m =>
       match methodOp item m with
       | some op =>
         if op.operationId.isEmpty then none
         else some ⟨op.operationId, path, m, op.parameters⟩
       | none => none)
      ++ listAllOperations rest

/-- The generator's `specialCases` table applied to the path-derived
resource name (the `account` row is conditioned on verb and path shape). -/
def genMainResource (path : List Nat) (method : HttpMethod)
    (isDetailPath : Bool) : List Nat :=
  let m := pathToResourceName path
  if m = strCodes "invoiceitems" then strCodes "invoiceItems"
  else if m = strCodes "account" then
    (if method = .mGet && !isDetailPath then strCodes "accounts"
     else strCodes "account")
  else if m = strCodes "linkAccountSessions" then strCodes "accountSessions"
  else if m = strCodes "linkedAccounts" then strCodes "accounts"
  else if m = strCodes "externalAccounts" then strCodes "accounts.externalAccounts"
  else m

/-- The generator's `singletonResources` list. -/
def singletonResources : List (List Nat) :=
  [strCodes "balance", strCodes "account"]

/-- The generator's singleton test: member of `singletonResources`, or the
`GetAccount` collection-shape GET on the `accounts` resource. -/
def genSingleton (mainResource : List Nat) (method : HttpMethod)
    (isDetailPath : Bool) (opId : List Nat) : Bool :=
  decide (mainResource ∈ singletonResources)
    || (decide (mainResource = strCodes "accounts") && method = .mGet
        && !isDetailPath && decide (opId = strCodes "GetAccount"))

/-- The four operationIds with hand-written wrapper bodies
(`specialImplementations`). -/
def specialOpIds : List (List Nat) :=
  [strCodes "GetBalanceSettings", strCodes "PostBalanceSettings",
   strCodes "GetLinkAccountSessionsSession", strCodes "PostExternalAccountsId"]

/-- The dispatch encoded by a generated wrapper body: which SDK resource and
method the emitted source calls, and — for identifier-taking calls — which
key the emitted destructuring reads and removes.  `special` stands for the
four hand-written bodies. -/
inductive GenImpl where
  | special (opId : List Nat)
  | retrieve0I (resource : List Nat)
  | retrieve1I (resource idParam : List Nat)
  | listI (resource : List Nat)
  | createI (resource : List Nat)
  | updateI (resource idParam : List Nat)
  | delI (resource idParam : List Nat)
  | cancelI (resource idParam : List Nat)
deriving DecidableEq, Repr

/-- `generateOperationWrapper`, abstracted to the dispatch its emitted
wrapper performs: detail test by `path.includes("\x7b")`, path-derived
resource name with special cases, singleton test, identifier key
`pathParamName || "id"`, then the per-verb branch — including the
subscriptions `cancel` special case on delete. -/
def generateOperationWrapper (op : GenOp) : GenImpl :=
  let isDetailPath := op.path.contains 123
  let mainResource := genMainResource op.path op.method isDetailPath
  let isSingleton := genSingleton mainResource op.method isDetailPath op.operationId
  let pathParamName := (op.parameters.find? fun p =>
    decide (p.inLoc = strCodes "path")).map (·.name)
  let idParam := idKey pathParamName
  if op.operationId ∈ specialOpIds then .special op.operationId
  else
    match op.method with
    | .mGet =>
      if isSingleton then .retrieve0I mainResource
      else if isDetailPath then .retrieve1I mainResource idParam
      else .listI mainResource
    | .mPost =>
      if isDetailPath then .updateI mainResource idParam
      else .createI mainResource
    | .mDelete =>
      if mainResource = strCodes "subscriptions" then .cancelI mainResource idParam
      else .delI mainResource idParam
    | .mPatch => .updateI mainResource idParam
    | .mPut => .updateI mainResource idParam

/-- Action of a generated wrapper (none for the hand-written bodies). -/
def genAction : GenImpl → Option ActionKind
  | .special _ => none
  | .retrieve0I _ => some .aRetrieve
  | .retrieve1I _ _ => some .aRetrieve
  | .listI _ => some .aList
  | .createI _ => some .aCreate
  | .updateI _ _ => some .aUpdate
  | .delI _ _ => some .aDelete
  | .cancelI _ _ => some .aCancel

/-- Resource name a generated wrapper targets (none for hand-written bodies). -/
def genResource : GenImpl → Option (List Nat)
  | .special _ => none
  | .retrieve0I r => some r
  | .retrieve1I r _ => some r
  | .listI r => some r
  | .createI r => some r
  | .updateI r _ => some r
  | .delI r _ => some r
  | .cancelI r _ => some r

/-- Running a generated wrapper on a parameter bag: the backend call its
emitted body performs (hand-written bodies are left unmodelled). -/
def runGen (g : GenImpl) (params : Bag) : Option BackendCall :=
  match g with
  | .special _ => none
  | .retrieve0I r => some (.retrieve0 r params)
  | .retrieve1I r k => some (.retrieve1 r (bagGet params k) (bagDel params k))
  | .listI r => some (.listCall r params)
  | .createI r => some (.createCall r params)
  | .updateI r k => some (.updateCall r (bagGet params k) (bagDel params k))
  | .delI r k => some (.delCall r (bagGet params k) (bagDel params k))
  | .cancelI r k => some (.cancelCall r (bagGet params k) (bagDel params k))

/-! ## Protocol layer (`handleInvokeApiEndpointTool` and the dispatcher) -/

/-- A raw argument value as the tool handler may receive it. -/
inductive ArgVal where
  | aStr : List Nat → ArgVal
  | aBag : Bag → ArgVal
  | aNum : Int → ArgVal
  | aBool : Bool → ArgVal
  | aNull : ArgVal
deriving DecidableEq, Repr

/-- The raw `arguments` object of an invoke request (fields may be absent
or of the wrong type; the zod schema validates them). -/
structure RawArgs where
  operationId : Option ArgVal := none
  parameters : Option ArgVal := none
deriving DecidableEq, Repr

/-- `InvokeApiEndpointSchema.parse`: `operationId` must be a string,
`parameters` an object when present; a failure is thrown (and caught by the
handler's `try`). -/
def parseInvokeArgs (args : RawArgs) :
    Except (List Nat) (List Nat × Option Bag) :=
  match args.operationId with
  | some (.aStr s) =>
    match args.parameters with
    | none => .ok (s, none)
    | some (.aBag b) => .ok (s, some b)
    | some _ => .error (strCodes "invalid parameters")
  | _ => .error (strCodes "invalid operationId")

/-- The structured payload the tool handler returns: exactly one text
content block, either the serialized result or an error message. -/
inductive Payload where
  | success (result : JVal)
  | errorText (msg : List Nat)
deriving DecidableEq, Repr

/-- Message of a thrown resolution error (both carry `not found` text). -/
def errMessage : InvokeErr → List Nat
  | .operationNotFound opId =>
    strCodes "Operation \x22" ++ opId ++ strCodes "\x22 not found"
  | .resourceNotFound res opId =>
    strCodes "Stripe SDK resource not found for: " ++ res
      ++ strCodes " (from operationId: " ++ opId ++ strCodes ")"

/-- A backend capability: what the live SDK does with a dispatched call —
either an opaque result or a thrown backend error message. -/
abbrev Backend : Type := BackendCall → Except (List Nat) JVal

/-- Wrapping the live backend call: its result serialized into a success
payload, its thrown error caught into an error payload. -/
def backendPayload (backend : Backend) (call : BackendCall) : Payload :=
  match backend call with
  | .error m => .errorText (strCodes "Error calling Stripe API: " ++ m)
  | .ok v => .success v

/-- Resolution followed by the backend call, every thrown error caught. -/
def invokePayload (backend : Backend) (doc : SpecDoc)
    (known : List (List Nat)) (opId : List Nat) (bag : Bag) : Payload :=
  match invokeStripeByOperationId doc known opId bag with
  | .error e =>
    .errorText (strCodes "Error calling Stripe API: " ++ errMessage e)
  | .ok call => backendPayload backend call

/-- `handleInvokeApiEndpointTool`: validate the arguments, invoke, and wrap
every thrown error (validation, resolution, or backend) into an error
payload — the `try`/`catch` of the source made explicit, so the handler is
a total function into `Payload`. -/
def handleInvokeApiEndpointTool (backend : Backend) (doc : SpecDoc)
    (known : List (List Nat)) (args : RawArgs) : Payload :=
  match parseInvokeArgs args with
  | .error m => .errorText (strCodes "Error calling Stripe API: " ++ m)
  | .ok (opId, params) =>
    invokePayload backend doc known opId (params.getD [])

/-- A sequence of independent invoke requests handled in order — the
`CallToolRequestSchema` handler run once per request; no state is carried
between requests (the loaded description and SDK surface are read-only). -/
def processCalls (backend : Backend) (doc : SpecDoc)
    (known : List (List Nat)) (reqs : List RawArgs) : List Payload :=
  reqs.map (handleInvokeApiEndpointTool backend doc known)

/-! ## Concrete fixtures

A small description document holding real Stripe endpoints, used to
evaluate both paths on concrete operations. -/

/-- Path parameter `customer` (location `path`). -/
def customerParam : ParamDecl := ⟨strCodes "customer", strCodes "path"⟩

/-- Path parameter `subscription_exposed_id` (location `path`). -/
def subsParam : ParamDecl := ⟨strCodes "subscription_exposed_id", strCodes "path"⟩

/-- `/v1/customers` collection item: `GetCustomers`, `PostCustomers`. -/
def custItem : PathItem :=
  { getOp := some ⟨strCodes "GetCustomers", []⟩
    postOp := some ⟨strCodes "PostCustomers", []⟩ }

/-- `/v1/customers/\x7bcustomer\x7d` detail item. -/
def custDetailItem : PathItem :=
  { getOp := some ⟨strCodes "GetCustomersCustomer", [customerParam]⟩
    postOp := some ⟨strCodes "PostCustomersCustomer", [customerParam]⟩
    deleteOp := some ⟨strCodes "DeleteCustomersCustomer", [customerParam]⟩ }

/-- `/v1/subscriptions/\x7bsubscription_exposed_id\x7d` detail item. -/
def subsDetailItem : PathItem :=
  { deleteOp := some ⟨strCodes "DeleteSubscriptionsSubscription", [subsParam]⟩ }

/-- `/v1/account` collection item: `GetAccount`. -/
def accountItem : PathItem :=
  { getOp := some ⟨strCodes "GetAccount", []⟩ }

/-- `/v1/balance_history` collection item: `GetBalanceHistory`. -/
def balanceHistoryItem : PathItem :=
  { getOp := some ⟨strCodes "GetBalanceHistory", []⟩ }

/-- A third-shape item (two segments below `/v1`), never indexed. -/
def nestedItem : PathItem :=
  { getOp := some ⟨strCodes "GetCustomersCustomerBalanceTransactions", [customerParam]⟩ }

/-- The concrete description document. -/
def exampleDoc : SpecDoc :=
  [ (strCodes "/v1/customers", custItem),
    (strCodes "/v1/customers/\x7bcustomer\x7d", custDetailItem),
    (strCodes "/v1/subscriptions/\x7bsubscription_exposed_id\x7d", subsDetailItem),
    (strCodes "/v1/account", accountItem),
    (strCodes "/v1/balance_history", balanceHistoryItem),
    (strCodes "/v1/customers/\x7bcustomer\x7d/balance_transactions", nestedItem) ]

/-- The SDK resource names the fixtures touch. -/
def exampleKnown : List (List Nat) :=
  [strCodes "customers", strCodes "subscriptions", strCodes "account",
   strCodes "balanceHistory"]

/-- The generator's record for the subscriptions delete endpoint. -/
def subsGenOp : GenOp :=
  ⟨strCodes "DeleteSubscriptionsSubscription",
   strCodes "/v1/subscriptions/\x7bsubscription_exposed_id\x7d",
   .mDelete, [subsParam]⟩

/-- The generator's record for `PostCustomers`. -/
def postCustomersGenOp : GenOp :=
  ⟨strCodes "PostCustomers", strCodes "/v1/customers", .mPost, []⟩

/-- The generator's record for `GetAccount`. -/
def getAccountGenOp : GenOp :=
  ⟨strCodes "GetAccount", strCodes "/v1/account", .mGet, []⟩

/-- The generator's record for `GetBalanceHistory`. -/
def getBalanceHistoryGenOp : GenOp :=
  ⟨strCodes "GetBalanceHistory", strCodes "/v1/balance_history", .mGet, []⟩

/-- The parameter bag of the splitter example: customer id plus email. -/
def exampleBag : Bag :=
  [ (strCodes "customer", .vStr (strCodes "cus_1")),
    (strCodes "email", .vStr (strCodes "a@b.com")) ]

/-- A bag carrying a subscription identifier. -/
def subsBag : Bag :=
  [ (strCodes "subscription_exposed_id", .vStr (strCodes "sub_1")) ]

/-- A backend that always succeeds with `null` (for concrete runs). -/
def okBackend : Backend := fun _ => .ok .vNull

/-- An invoke request naming an operation absent from the index. -/
def badReq : RawArgs :=
  { operationId := some (.aStr (strCodes "GetNope")) }

/-- A well-formed invoke request for `GetCustomers`. -/
def goodReq : RawArgs :=
  { operationId := some (.aStr (strCodes "GetCustomers")),
    parameters := some (.aBag []) }

/-! ## Character and tokenization lemmas -/

theorem upperB_lowerChar (c : Nat) : upperB (lowerChar c) = false := by
  unfold upperB lowerChar
  split
  · next h => simp only [decide_eq_false_iff_not]; omega
  · next h => simp only [decide_eq_false_iff_not]; exact h

theorem lowerChar_id_of_not_upper (c : Nat) (h : upperB c = false) :
    lowerChar c = c := by
  unfold lowerChar
  split
  · next hc => exact absurd hc (by simpa [upperB] using h)
  · rfl

theorem lowerChar_idem (c : Nat) : lowerChar (lowerChar c) = lowerChar c :=
  lowerChar_id_of_not_upper _ (upperB_lowerChar c)

theorem lowerStr_idem (l : List Nat) : lowerStr (lowerStr l) = lowerStr l := by
  induction l with
  | nil => rfl
  | cons c cs ih =>
    show lowerChar (lowerChar c) :: lowerStr (lowerStr cs)
      = lowerChar c :: lowerStr cs
    rw [lowerChar_idem, ih]

theorem upperB_mem_lowerStr (l : List Nat) :
    ∀ x ∈ lowerStr l, upperB x = false := by
  intro x hx
  obtain ⟨y, _, rfl⟩ := List.mem_map.mp hx
  exact upperB_lowerChar y

theorem splitCapsAux_noUpper (l : List Nat)
    (hl : ∀ x ∈ l, upperB x = false) :
    ∀ (m acc : List Nat),
      splitCapsAux (l ++ m) acc = splitCapsAux m (l.reverse ++ acc) := by
  induction l with
  | nil => intro m acc; simp
  | cons c cs ih =>
    intro m acc
    have hc : upperB c = false := hl c (by simp)
    have hcs : ∀ x ∈ cs, upperB x = false := fun x hx => hl x (by simp [hx])
    simp only [List.cons_append, splitCapsAux, hc, Bool.false_and,
      Bool.false_eq_true, if_false, List.append_eq]
    rw [ih hcs m (c :: acc)]
    congr 1
    simp

theorem validTok_parts (c : Nat) (cs : List Nat)
    (h : validTok (c :: cs) = true) :
    upperB c = true ∧ ∀ x ∈ cs, upperB x = false := by
  simp only [validTok, Bool.and_eq_true, List.all_eq_true] at h
  refine ⟨h.1, fun x hx => ?_⟩
  have := h.2 x hx
  simpa using this

theorem splitCapsAux_flatten (rest : List (List Nat))
    (hrest : ∀ tk ∈ rest, validTok tk = true) :
    ∀ acc : List Nat, acc ≠ [] →
      splitCapsAux rest.flatten acc = acc.reverse :: rest := by
  induction rest with
  | nil => intro acc _; simp [splitCapsAux]
  | cons tk rest' ih =>
    intro acc hacc
    have htk : validTok tk = true := hrest tk (by simp)
    obtain ⟨c, cs, rfl⟩ : ∃ c cs, tk = c :: cs := by
      cases tk with
      | nil => simp [validTok] at htk
      | cons c cs => exact ⟨c, cs, rfl⟩
    obtain ⟨hc, hcs⟩ := validTok_parts c cs htk
    have haccB : acc.isEmpty = false := by
      cases acc with
      | nil => exact absurd rfl hacc
      | cons a as => rfl
    simp only [List.flatten_cons, List.cons_append, splitCapsAux, hc, haccB,
      Bool.not_false, Bool.and_true, if_true, List.append_eq]
    rw [splitCapsAux_noUpper cs hcs rest'.flatten [c]]
    rw [ih (fun t h => hrest t (by simp [h])) (cs.reverse ++ [c]) (by simp)]
    simp

theorem splitCaps_append (t : List Nat) (ht : t ≠ [])
    (htail : ∀ x ∈ t.tail, upperB x = false)
    (rest : List (List Nat)) (hrest : ∀ tk ∈ rest, validTok tk = true) :
    splitCaps (t ++ rest.flatten) = t :: rest := by
  obtain ⟨c, cs, rfl⟩ := List.exists_cons_of_ne_nil ht
  unfold splitCaps
  simp only [List.cons_append, splitCapsAux, List.isEmpty_nil, Bool.not_true,
    Bool.and_false, Bool.false_eq_true, if_false, List.append_eq]
  rw [splitCapsAux_noUpper cs (by simpa using htail) rest.flatten [c]]
  rw [splitCapsAux_flatten rest hrest (cs.reverse ++ [c]) (by simp)]
  simp

theorem strCodes_Get : strCodes "Get" = [71, 101, 116] := by decide

theorem strCodes_Post : strCodes "Post" = [80, 111, 115, 116] := by decide

theorem strCodes_Put : strCodes "Put" = [80, 117, 116] := by decide

theorem strCodes_Patch : strCodes "Patch" = [80, 97, 116, 99, 104] := by decide

theorem strCodes_Delete : strCodes "Delete" = [68, 101, 108, 101, 116, 101] := by decide

theorem tryDrop_self (p l : List Nat) : tryDrop p (p ++ l) = some l := by
  induction p with
  | nil => rfl
  | cons c cs ih => simp [tryDrop, ih]

theorem dropVerb_verb (v : HVerb) (r : List Nat) :
    dropVerb (verbCodes v ++ r) = r := by
  cases v <;>
    simp [dropVerb, verbCodes, strCodes_Get, strCodes_Post, strCodes_Put,
      strCodes_Patch, strCodes_Delete, tryDrop]

theorem dropVerb_low (c : Nat) (cs : List Nat) (hc : 97 ≤ c) :
    dropVerb (c :: cs) = c :: cs := by
  have h71 : ¬ ((71 : Nat) = c) := by omega
  have h80 : ¬ ((80 : Nat) = c) := by omega
  have h68 : ¬ ((68 : Nat) = c) := by omega
  simp [dropVerb, strCodes_Get, strCodes_Post, strCodes_Put, strCodes_Patch,
    strCodes_Delete, tryDrop, h71, h80, h68]

/-- Shape of `parseOp` once the token decomposition of the stripped
operationId is known. -/
theorem parseOp_of_parts (s : List Nat) (t : List Nat) (rest : List (List Nat))
    (h : splitCaps (dropVerb s) = t :: rest) :
    parseOp s
      = ⟨t :: rest,
         decide (0 < rest.length)
           && decide (stripS (lowerStr t) = lowerStr (rest.headD [])),
         if (decide (0 < rest.length)
             && decide (stripS (lowerStr t) = lowerStr (rest.headD []))) = true
         then lowerStr t else lowerStr t ++ rest.flatten⟩ := by
  simp only [parseOp]
  rw [h]
  cases rest with
  | nil => simp
  | cons r1 rs =>
    have h1 : (1 : Nat) < (t :: r1 :: rs).length := by
      simp [List.length_cons]
    have h0 : (0 : Nat) < (r1 :: rs).length := by simp
    simp [h1, h0]

/-- `parseOp` on a grammar-conforming operationId: verb prefix followed by
capitalized tokens. -/
theorem parseOp_valid (v : HVerb) (t : List Nat) (rest : List (List Nat))
    (ht : validTok t = true) (hrest : ∀ tk ∈ rest, validTok tk = true) :
    parseOp (verbCodes v ++ (t :: rest).flatten)
      = ⟨t :: rest,
         decide (0 < rest.length)
           && decide (stripS (lowerStr t) = lowerStr (rest.headD [])),
         if (decide (0 < rest.length)
             && decide (stripS (lowerStr t) = lowerStr (rest.headD []))) = true
         then lowerStr t else lowerStr t ++ rest.flatten⟩ := by
  obtain ⟨c, cs, rfl⟩ : ∃ c cs, t = c :: cs := by
    cases t with
    | nil => simp [validTok] at ht
    | cons c cs => exact ⟨c, cs, rfl⟩
  obtain ⟨_, hcs⟩ := validTok_parts c cs ht
  apply parseOp_of_parts
  rw [dropVerb_verb, List.flatten_cons]
  exact splitCaps_append (c :: cs) (by simp) (by simpa using hcs) rest hrest

/-- `parseOp` on a string that starts with a lower-case letter (no verb
prefix is stripped) and decomposes into a capital-free first chunk followed
by capitalized tokens. -/
theorem parseOp_lowerStart (t : List Nat) (rest : List (List Nat))
    (ht : t ≠ []) (hhead : 97 ≤ t.headD 0)
    (htail : ∀ x ∈ t.tail, upperB x = false)
    (hrest : ∀ tk ∈ rest, validTok tk = true) :
    parseOp (t ++ rest.flatten)
      = ⟨t :: rest,
         decide (0 < rest.length)
           && decide (stripS (lowerStr t) = lowerStr (rest.headD [])),
         if (decide (0 < rest.length)
             && decide (stripS (lowerStr t) = lowerStr (rest.headD []))) = true
         then lowerStr t else lowerStr t ++ rest.flatten⟩ := by
  obtain ⟨c, cs, rfl⟩ := List.exists_cons_of_ne_nil ht
  apply parseOp_of_parts
  rw [show (c :: cs) ++ rest.flatten = c :: (cs ++ rest.flatten) from rfl]
  rw [dropVerb_low c (cs ++ rest.flatten) (by simpa using hhead)]
  exact splitCaps_append (c :: cs) (by simp) (by simpa using htail) rest hrest

/-! ## Bag lemmas -/

theorem bagGet_bagDel_self (b : Bag) (k : List Nat) :
    bagGet (bagDel b k) k = none := by
  unfold bagGet bagDel
  rw [List.find?_filter]
  have h : List.find?
      (fun a => decide (decide (a.1 ≠ k) = true ∧ decide (a.1 = k) = true)) b
      = none := by
    rw [List.find?_eq_none]
    intro x _
    by_cases h : x.1 = k <;> simp [h]
  rw [h]
  rfl

theorem bagGet_bagDel_ne (b : Bag) (k k2 : List Nat) (h2 : k2 ≠ k) :
    bagGet (bagDel b k) k2 = bagGet b k2 := by
  unfold bagGet bagDel
  rw [List.find?_filter]
  congr 2
  funext a
  by_cases h : a.1 = k2
  · have hk : a.1 ≠ k := by rw [h]; exact h2
    simp [h, hk, h2]
  · simp [h]

/-! ## Store lemmas (for the frame property) -/

theorem storeGet_mem (s : Store) (r : Nat) (b : Bag)
    (h : storeGet s r = some b) : r ∈ s.map (·.1) := by
  induction s with
  | nil => simp [storeGet] at h
  | cons e tl ih =>
    by_cases he : e.1 = r
    · simp [he]
    · unfold storeGet at h ih
      rw [List.find?_cons_of_neg _ (by simpa using he)] at h
      exact List.mem_cons.mpr (Or.inr (ih h))

theorem le_foldr_max (l : List Nat) (r : Nat) (h : r ∈ l) :
    r ≤ l.foldr max 0 := by
  induction l with
  | nil => simp at h
  | cons a tl ih =>
    rcases List.mem_cons.mp h with rfl | h
    · exact le_max_left _ _
    · exact le_trans (ih h) (le_max_right _ _)

theorem mem_lt_freshRef (s : Store) (r : Nat) (h : r ∈ s.map (·.1)) :
    r < freshRef s := by
  unfold freshRef
  have := le_foldr_max (s.map (·.1)) r h
  omega

theorem storeGet_cons_ne (s : Store) (r r2 : Nat) (b : Bag) (hne : r2 ≠ r) :
    storeGet ((r2, b) :: s) r = storeGet s r := by
  unfold storeGet
  rw [List.find?_cons_of_neg _ (by simpa using hne)]

theorem storeGet_storeSet_ne (s : Store) (r r2 : Nat) (b : Bag)
    (hne : r2 ≠ r) :
    storeGet (storeSet s r2 b) r = storeGet s r := by
  induction s with
  | nil => rfl
  | cons e tl ih =>
    show storeGet ((if e.1 = r2 then (r2, b) else e) :: storeSet tl r2 b) r
      = storeGet (e :: tl) r
    by_cases he : e.1 = r2
    · rw [if_pos he]
      have her : ¬ e.1 = r := by rw [he]; exact hne
      unfold storeGet
      rw [List.find?_cons_of_neg _ (by simpa using hne),
          List.find?_cons_of_neg _ (by simpa using her)]
      exact ih
    · rw [if_neg he]
      by_cases her : e.1 = r
      · unfold storeGet
        rw [List.find?_cons_of_pos _ (by simpa using her),
            List.find?_cons_of_pos _ (by simpa using her)]
      · unfold storeGet
        rw [List.find?_cons_of_neg _ (by simpa using her),
            List.find?_cons_of_neg _ (by simpa using her)]
        exact ih

/-! ## Schema-index shape lemmas -/

theorem shape_skip_iff (p : List Nat) :
    (!matchTop p && !matchDetail p) = true ↔ shapeOk p = false := by
  unfold shapeOk
  cases matchTop p <;> cases matchDetail p <;> simp

theorem findOperationById_cons_ok (p : List Nat) (item : PathItem)
    (rest : SpecDoc) (opId : List Nat)
    (h1 : (!matchTop p && !matchDetail p) = false) :
    findOperationById ((p, item) :: rest) opId
      = match findInItem item p opId with
        | some f => some f
        | none => findOperationById rest opId := by
  show (if (!matchTop p && !matchDetail p) = true then _ else _) = _
  rw [h1]
  simp

theorem findOperationById_cons_skip (p : List Nat) (item : PathItem)
    (rest : SpecDoc) (opId : List Nat)
    (h1 : (!matchTop p && !matchDetail p) = true) :
    findOperationById ((p, item) :: rest) opId
      = findOperationById rest opId := by
  show (if (!matchTop p && !matchDetail p) = true then _ else _) = _
  rw [h1]
  simp

theorem listAllOperationIds_cons_ok (p : List Nat) (item : PathItem)
    (rest : SpecDoc) (h1 : (!matchTop p && !matchDetail p) = false) :
    listAllOperationIds ((p, item) :: rest)
      = itemOps item ++ listAllOperationIds rest := by
  show (if (!matchTop p && !matchDetail p) = true then _ else _) ++ _ = _
  rw [h1]
  simp

theorem listAllOperationIds_cons_skip (p : List Nat) (item : PathItem)
    (rest : SpecDoc) (h1 : (!matchTop p && !matchDetail p) = true) :
    listAllOperationIds ((p, item) :: rest) = listAllOperationIds rest := by
  show (if (!matchTop p && !matchDetail p) = true then _ else _) ++ _ = _
  rw [h1]
  simp

theorem shapeOk_not_skip (p : List Nat) (hs : shapeOk p = true) :
    (!matchTop p && !matchDetail p) = false := by
  cases hss : (!matchTop p && !matchDetail p) with
  | false => rfl
  | true => rw [(shape_skip_iff p).mp hss] at hs; exact absurd hs (by simp)

theorem findOperationById_filter (doc : SpecDoc) (opId : List Nat) :
    findOperationById doc opId
      = findOperationById (doc.filter fun e => shapeOk e.1) opId := by
  induction doc with
  | nil => rfl
  | cons e rest ih =>
    obtain ⟨p, item⟩ := e
    by_cases hs : shapeOk p = true
    · have h1 := shapeOk_not_skip p hs
      rw [List.filter_cons_of_pos (by simpa using hs),
        findOperationById_cons_ok p item rest opId h1,
        findOperationById_cons_ok p item _ opId h1]
      cases findInItem item p opId
      · simpa using ih
      · rfl
    · have hs' : shapeOk p = false := by
        cases hss : shapeOk p with
        | false => rfl
        | true => exact absurd hss hs
      have h1 : (!matchTop p && !matchDetail p) = true := (shape_skip_iff p).mpr hs'
      rw [List.filter_cons_of_neg (by simp [hs']),
        findOperationById_cons_skip p item rest opId h1]
      exact ih

theorem listAllOperationIds_filter (doc : SpecDoc) :
    listAllOperationIds doc
      = listAllOperationIds (doc.filter fun e => shapeOk e.1) := by
  induction doc with
  | nil => rfl
  | cons e rest ih =>
    obtain ⟨p, item⟩ := e
    by_cases hs : shapeOk p = true
    · have h1 := shapeOk_not_skip p hs
      rw [List.filter_cons_of_pos (by simpa using hs),
        listAllOperationIds_cons_ok p item rest h1,
        listAllOperationIds_cons_ok p item _ h1, ih]
    · have hs' : shapeOk p = false := by
        cases hss : shapeOk p with
        | false => rfl
        | true => exact absurd hss hs
      have h1 : (!matchTop p && !matchDetail p) = true := (shape_skip_iff p).mpr hs'
      rw [List.filter_cons_of_neg (by simp [hs']),
        listAllOperationIds_cons_skip p item rest h1]
      exact ih

theorem listAllOperationIds_mem (doc : SpecDoc) (id : List Nat)
    (h : id ∈ listAllOperationIds doc) :
    ∃ p item, (p, item) ∈ doc ∧ shapeOk p = true ∧ id ∈ itemOps item := by
  induction doc with
  | nil => simp [listAllOperationIds] at h
  | cons e rest ih =>
    obtain ⟨p, item⟩ := e
    have h' : id ∈ (if (!matchTop p && !matchDetail p) = true then []
        else itemOps item) ++ listAllOperationIds rest := h
    rcases List.mem_append.mp h' with h1 | h2
    · by_cases hskip : (!matchTop p && !matchDetail p) = true
      · rw [if_pos hskip] at h1; simp at h1
      · rw [if_neg hskip] at h1
        have hsh : shapeOk p = true := by
          cases hss : shapeOk p with
          | true => rfl
          | false => exact absurd ((shape_skip_iff p).mpr hss) hskip
        exact ⟨p, item, by simp, hsh, h1⟩
    · obtain ⟨p', item', hmem, hsh, hop⟩ := ih h2
      exact ⟨p', item', by simp [hmem], hsh, hop⟩

/-! ## Claim theorems -/

/-- C4: for every operationId matching the grammar (a verb prefix followed
by capitalized tokens), the parser computes `isDetailOperation` as
(token count > 1) AND (first token lower-cased with one trailing `s`
stripped equals the second token lower-cased), and the resource-name
candidate is the first token lower-cased when detail, otherwise the first
token lower-cased concatenated with all remaining tokens verbatim. -/
theorem c4_operation_name_parsing (v : HVerb) (t : List Nat)
    (rest : List (List Nat)) (ht : validTok t = true)
    (hrest : ∀ tk ∈ rest, validTok tk = true) :
    (parseOp (verbCodes v ++ (t :: rest).flatten)).isDetail
      = (decide (0 < rest.length)
          && decide (stripS (lowerStr t) = lowerStr (rest.headD [])))
    ∧ (parseOp (verbCodes v ++ (t :: rest).flatten)).mainResource
      = if 0 < rest.length ∧ stripS (lowerStr t) = lowerStr (rest.headD [])
        then lowerStr t else lowerStr t ++ rest.flatten := by
  rw [parseOp_valid v t rest ht hrest]
  refine ⟨rfl, ?_⟩
  show (if (decide (0 < rest.length)
        && decide (stripS (lowerStr t) = lowerStr (rest.headD []))) = true
      then lowerStr t else lowerStr t ++ rest.flatten) = _
  by_cases hd : 0 < rest.length ∧ stripS (lowerStr t) = lowerStr (rest.headD [])
  · rw [if_pos hd, if_pos (by simp [hd.1, hd.2])]
  · rw [if_neg hd,
      if_neg (by simpa [Bool.and_eq_true, decide_eq_true_eq] using hd)]

/-- C4 witness: `PostSetupIntents` parses as a non-detail operation with
resource-name candidate `setupIntents` (tokens `Setup`, `Intents`). -/
theorem c4_witness :
    (parseOp (strCodes "PostSetupIntents")).isDetail = false
    ∧ (parseOp (strCodes "PostSetupIntents")).mainResource
        = strCodes "setupIntents" := by
  have h := c4_operation_name_parsing HVerb.hpost (strCodes "Setup")
    [strCodes "Intents"] (by decide) (by decide)
  have e : verbCodes HVerb.hpost
      ++ (strCodes "Setup" :: [strCodes "Intents"]).flatten
      = strCodes "PostSetupIntents" := by decide
  rw [e] at h
  refine ⟨?_, ?_⟩
  · rw [h.1]; decide
  · rw [h.2]; decide

/-- C9: parsing is idempotent — for every grammar-conforming operationId,
re-parsing the derived resource-name candidate yields the same candidate. -/
theorem c9_parse_idempotent (v : HVerb) (t : List Nat)
    (rest : List (List Nat)) (ht : validTok t = true)
    (hrest : ∀ tk ∈ rest, validTok tk = true) :
    (parseOp ((parseOp (verbCodes v ++ (t :: rest).flatten)).mainResource)).mainResource
      = (parseOp (verbCodes v ++ (t :: rest).flatten)).mainResource := by
  obtain ⟨c, cs, rfl⟩ : ∃ c cs, t = c :: cs := by
    cases t with
    | nil => simp [validTok] at ht
    | cons c cs => exact ⟨c, cs, rfl⟩
  obtain ⟨hc, hcs⟩ := validTok_parts c cs ht
  have hcUp : 65 ≤ c ∧ c ≤ 90 := by simpa [upperB] using hc
  have hlowhead : 97 ≤ lowerChar c := by unfold lowerChar; split <;> omega
  have hlowtail : ∀ x ∈ (lowerStr (c :: cs)).tail, upperB x = false := by
    intro x hx
    exact upperB_mem_lowerStr cs x (by simpa [lowerStr] using hx)
  rw [parseOp_valid v (c :: cs) rest ht hrest]
  by_cases hb : (decide (0 < rest.length)
      && decide (stripS (lowerStr (c :: cs)) = lowerStr (rest.headD []))) = true
  · -- detail: candidate is the lower-cased first token alone
    simp only [hb, if_true]
    rw [show lowerStr (c :: cs) = lowerStr (c :: cs) ++ ([] : List (List Nat)).flatten
        by simp]
    rw [parseOp_lowerStart (lowerStr (c :: cs)) []
      (by simp [lowerStr]) (by simpa [lowerStr] using hlowhead) hlowtail
      (by intro tk h; simp at h)]
    simp [lowerStr_idem]
  · -- non-detail: candidate keeps the remaining tokens verbatim
    simp only [hb, if_false, Bool.false_eq_true]
    rw [parseOp_lowerStart (lowerStr (c :: cs)) rest
      (by simp [lowerStr]) (by simpa [lowerStr] using hlowhead) hlowtail hrest]
    have hb2 : (decide (0 < rest.length)
        && decide (stripS (lowerStr (lowerStr (c :: cs)))
            = lowerStr (rest.headD []))) = false := by
      rw [lowerStr_idem]
      exact Bool.not_eq_true _ ▸ (Bool.eq_false_iff.mpr (fun h2 => hb h2))
    simp only [hb2, if_false, Bool.false_eq_true]
    rw [lowerStr_idem]

/-- C9 witness: re-parsing the candidate derived from `PostCustomers`
(namely `customers`) yields `customers` again. -/
theorem c9_witness :
    (parseOp ((parseOp (strCodes "PostCustomers")).mainResource)).mainResource
      = (parseOp (strCodes "PostCustomers")).mainResource := by
  have h := c9_parse_idempotent HVerb.hpost (strCodes "Customers") []
    (by decide) (by intro tk hk; simp at hk)
  have e : verbCodes HVerb.hpost ++ (strCodes "Customers" :: []).flatten
      = strCodes "PostCustomers" := by decide
  rw [e] at h
  exact h

/-- C5: for every parameter bag and declared path-parameter key, splitting
yields the bag's value under that key (undefined when absent) and a body
equal to the bag with that key removed; the identifier key never appears in
the body and every other key is untouched.  In particular the bag
(customer: cus_1, email: a@b.com) with declared name customer yields
identifier cus_1 and body (email: a@b.com) with no customer key. -/
theorem c5_parameter_splitter :
    (∀ (b : Bag) (k : List Nat),
        (splitBag b k).1 = bagGet b k ∧ (splitBag b k).2 = bagDel b k)
    ∧ (∀ (b : Bag) (k : List Nat), bagGet (bagDel b k) k = none)
    ∧ (∀ (b : Bag) (k k2 : List Nat), k2 ≠ k →
        bagGet (bagDel b k) k2 = bagGet b k2)
    ∧ splitBag exampleBag (strCodes "customer")
        = (some (.vStr (strCodes "cus_1")),
           [(strCodes "email", .vStr (strCodes "a@b.com"))]) :=
  ⟨fun _ _ => ⟨rfl, rfl⟩, bagGet_bagDel_self, bagGet_bagDel_ne, by decide⟩

/-- C5 witness: at the concrete example bag, the non-identifier key
`email` survives splitting unchanged. -/
theorem c5_witness :
    bagGet (bagDel exampleBag (strCodes "customer")) (strCodes "email")
      = bagGet exampleBag (strCodes "email") :=
  c5_parameter_splitter.2.2.1 exampleBag (strCodes "customer")
    (strCodes "email") (by decide)

/-- C7: lookup and enumeration consider a path's operations iff the path
matches the collection shape or the detail shape — both functions are
unchanged by restricting the document to shape-matching paths, every
enumerated id comes from a shape-matching path, and a deeper path (a
third shape) is invisible to both lookup and enumeration. -/
theorem c7_shape_restriction :
    (∀ (doc : SpecDoc) (opId : List Nat),
        findOperationById doc opId
          = findOperationById (doc.filter fun e => shapeOk e.1) opId)
    ∧ (∀ doc : SpecDoc,
        listAllOperationIds doc
          = listAllOperationIds (doc.filter fun e => shapeOk e.1))
    ∧ (∀ (doc : SpecDoc) (id : List Nat), id ∈ listAllOperationIds doc →
        ∃ p item, (p, item) ∈ doc ∧ shapeOk p = true ∧ id ∈ itemOps item)
    ∧ shapeOk (strCodes "/v1/customers") = true
    ∧ shapeOk (strCodes "/v1/customers/\x7bcustomer\x7d") = true
    ∧ shapeOk (strCodes "/v1/customers/\x7bcustomer\x7d/balance_transactions")
        = false
    ∧ strCodes "GetCustomersCustomerBalanceTransactions"
        ∉ listAllOperationIds exampleDoc
    ∧ findOperationById exampleDoc
        (strCodes "GetCustomersCustomerBalanceTransactions") = none :=
  ⟨findOperationById_filter, listAllOperationIds_filter,
   listAllOperationIds_mem, by decide, by decide, by decide, by decide,
   by decide⟩

/-- C7 witness: at the concrete document, the enumerated id `GetCustomers`
indeed originates from a shape-matching path. -/
theorem c7_witness :
    ∃ p item, (p, item) ∈ exampleDoc ∧ shapeOk p = true
      ∧ strCodes "GetCustomers" ∈ itemOps item :=
  c7_shape_restriction.2.2.1 exampleDoc (strCodes "GetCustomers") (by decide)

/-- C1 counterexample: the subscriptions delete operation is enumerated by
the Schema Index, yet the runtime dispatch resolves it to the del method
(action Delete) while the code-generation path resolves it to cancel
(action Cancel) — the two modes are not outputs of one resolution
function. -/
theorem c1_counterexample :
    strCodes "DeleteSubscriptionsSubscription" ∈ listAllOperationIds exampleDoc
    ∧ subsGenOp ∈ listAllOperations exampleDoc
    ∧ invokeStripeByOperationId exampleDoc exampleKnown
        (strCodes "DeleteSubscriptionsSubscription") subsBag
        = .ok (.delCall (strCodes "subscriptions")
            (some (.vStr (strCodes "sub_1"))) [])
    ∧ generateOperationWrapper subsGenOp
        = .cancelI (strCodes "subscriptions")
            (strCodes "subscription_exposed_id")
    ∧ callAction (.delCall (strCodes "subscriptions")
        (some (.vStr (strCodes "sub_1"))) []) = .aDelete
    ∧ genAction (.cancelI (strCodes "subscriptions")
        (strCodes "subscription_exposed_id")) = some .aCancel
    ∧ ActionKind.aDelete ≠ ActionKind.aCancel := by
  decide

/-- C1 amended: the runtime dispatch and the code-generation path are two
independently evolving heuristics, not one resolution function with two
output modes: they agree on representative collection operations (for
PostCustomers both resolve resource customers with action Create) but
diverge on the subscriptions delete operation, where the runtime selects
del (Delete) and the generator emits cancel (Cancel). -/
theorem c1_amended_independent_heuristics :
    invokeStripeByOperationId exampleDoc exampleKnown
        (strCodes "PostCustomers") []
      = .ok (.createCall (strCodes "customers") [])
    ∧ generateOperationWrapper postCustomersGenOp
        = .createI (strCodes "customers")
    ∧ callAction (.createCall (strCodes "customers") []) = .aCreate
    ∧ genAction (.createI (strCodes "customers")) = some .aCreate
    ∧ invokeStripeByOperationId exampleDoc exampleKnown
        (strCodes "DeleteSubscriptionsSubscription") subsBag
      = .ok (.delCall (strCodes "subscriptions")
          (some (.vStr (strCodes "sub_1"))) [])
    ∧ generateOperationWrapper subsGenOp
        = .cancelI (strCodes "subscriptions")
            (strCodes "subscription_exposed_id") := by
  decide

/-- C2 counterexample: resolving `DeleteSubscriptionsSubscription` through
the runtime invocation path calls the backend's del method (action
Delete), not cancel — contradicting the claimed subscriptions exception
for the runtime path. -/
theorem c2_counterexample :
    invokeStripeByOperationId exampleDoc exampleKnown
        (strCodes "DeleteSubscriptionsSubscription") subsBag
      = .ok (.delCall (strCodes "subscriptions")
          (some (.vStr (strCodes "sub_1"))) [])
    ∧ callAction (.delCall (strCodes "subscriptions")
        (some (.vStr (strCodes "sub_1"))) []) = .aDelete
    ∧ ActionKind.aDelete ≠ ActionKind.aCancel := by
  decide

/-- C2 amended: only the code-generation path maps the delete verb to
Cancel for the subscriptions resource (and Delete otherwise); the runtime
invocation path always calls the backend's del method for delete-verb
operations, subscriptions included. -/
theorem c2_amended_delete_action :
    (∀ op : GenOp, op.method = .mDelete → op.operationId ∉ specialOpIds →
        generateOperationWrapper op
          = (if genMainResource op.path op.method (op.path.contains 123)
                = strCodes "subscriptions"
             then GenImpl.cancelI
                (genMainResource op.path op.method (op.path.contains 123))
                (declaredKey ⟨op.operationId, op.parameters⟩)
             else GenImpl.delI
                (genMainResource op.path op.method (op.path.contains 123))
                (declaredKey ⟨op.operationId, op.parameters⟩)))
    ∧ (∀ (doc : SpecDoc) (known : List (List Nat)) (opId : List Nat)
        (bag : Bag) (found : FoundOp),
        findOperationById doc opId = some found → found.method = .mDelete →
        (parseOp opId).mainResource ∈ known →
        invokeStripeByOperationId doc known opId bag
          = .ok (.delCall (parseOp opId).mainResource
              (bagGet bag (declaredKey found.operation))
              (bagDel bag (declaredKey found.operation)))) := by
  constructor
  · intro op hm hns
    obtain ⟨oid, path, meth, ps⟩ := op
    cases hm
    simp only [generateOperationWrapper]
    rw [if_neg hns]
    rfl
  · intro doc known opId bag found hfind hmeth hknown
    obtain ⟨op, path, meth⟩ := found
    cases hmeth
    simp only [invokeStripeByOperationId, hfind]
    rw [if_neg (not_not_intro hknown)]

/-- C2 amended witness: both conjuncts at the subscriptions fixtures — the
generator emits cancel there, and the runtime invocation calls del. -/
theorem c2_amended_witness :
    generateOperationWrapper subsGenOp
      = .cancelI (strCodes "subscriptions") (strCodes "subscription_exposed_id")
    ∧ invokeStripeByOperationId exampleDoc exampleKnown
        (strCodes "DeleteSubscriptionsSubscription") subsBag
      = .ok (.delCall (strCodes "subscriptions")
          (some (.vStr (strCodes "sub_1"))) []) := by
  constructor
  · have h := c2_amended_delete_action.1 subsGenOp rfl (by decide)
    rw [h]
    decide
  · have h := c2_amended_delete_action.2 exampleDoc exampleKnown
      (strCodes "DeleteSubscriptionsSubscription") subsBag
      ⟨⟨strCodes "DeleteSubscriptionsSubscription", [subsParam]⟩,
       strCodes "/v1/subscriptions/\x7bsubscription_exposed_id\x7d", .mDelete⟩
      (by decide) rfl (by decide)
    rw [h]
    decide

/-- C3 counterexample: invoking the detail-shaped `GetCustomersCustomer`
with an empty parameter bag does not fail with a missing-identifier error —
the runtime proceeds and calls the backend's retrieve with identifier
undefined (`none`). -/
theorem c3_counterexample :
    invokeStripeByOperationId exampleDoc exampleKnown
        (strCodes "GetCustomersCustomer") []
      = .ok (.retrieve1 (strCodes "customers") none [])
    ∧ callId (.retrieve1 (strCodes "customers") none []) = some none := by
  exact ⟨rfl, rfl⟩

/-- C3 amended: the runtime performs no missing-identifier check — for
every identifier-taking backend call it makes, the identifier is exactly
the bag's value under the declared key (undefined when absent), and under
the delete verb with the key absent the backend's del method is still
called with an undefined identifier instead of failing first. -/
theorem c3_amended_no_missing_id_check :
    (∀ (doc : SpecDoc) (known : List (List Nat)) (opId : List Nat)
        (bag : Bag) (found : FoundOp) (c : BackendCall) (i : Option JVal),
        findOperationById doc opId = some found →
        invokeStripeByOperationId doc known opId bag = .ok c →
        callId c = some i →
        i = bagGet bag (declaredKey found.operation))
    ∧ (∀ (doc : SpecDoc) (known : List (List Nat)) (opId : List Nat)
        (bag : Bag) (found : FoundOp),
        findOperationById doc opId = some found → found.method = .mDelete →
        (parseOp opId).mainResource ∈ known →
        bagGet bag (declaredKey found.operation) = none →
        invokeStripeByOperationId doc known opId bag
          = .ok (.delCall (parseOp opId).mainResource none
              (bagDel bag (declaredKey found.operation)))) := by
  constructor
  · intro doc known opId bag found c i hfind hinv hci
    obtain ⟨op, path, meth⟩ := found
    simp only [invokeStripeByOperationId, hfind] at hinv
    by_cases hk : (parseOp opId).mainResource ∈ known
    · rw [if_neg (not_not_intro hk)] at hinv
      cases meth <;> split_ifs at hinv <;> cases hinv <;>
        simp only [callId, Option.some.injEq] at hci <;>
        first
          | exact hci.symm
          | cases hci
    · rw [if_pos hk] at hinv
      cases hinv
  · intro doc known opId bag found hfind hmeth hknown hmiss
    obtain ⟨op, path, meth⟩ := found
    cases hmeth
    simp only [invokeStripeByOperationId, hfind]
    rw [if_neg (not_not_intro hknown)]
    simp only at hmiss
    rw [hmiss]

/-- C3 amended witness: both conjuncts at the concrete fixtures — the
identifier handed to the backend for `DeleteCustomersCustomer` on the
example bag is its customer value, and the delete on an empty bag reaches
the backend with identifier undefined. -/
theorem c3_amended_witness :
    some (.vStr (strCodes "cus_1"))
      = bagGet exampleBag
          (declaredKey ⟨strCodes "DeleteCustomersCustomer", [customerParam]⟩)
    ∧ invokeStripeByOperationId exampleDoc exampleKnown
        (strCodes "DeleteSubscriptionsSubscription") []
      = .ok (.delCall
          (parseOp (strCodes "DeleteSubscriptionsSubscription")).mainResource
          none
          (bagDel []
            (declaredKey ⟨strCodes "DeleteSubscriptionsSubscription",
              [subsParam]⟩))) := by
  constructor
  · exact c3_amended_no_missing_id_check.1 exampleDoc exampleKnown
      (strCodes "DeleteCustomersCustomer") exampleBag
      ⟨⟨strCodes "DeleteCustomersCustomer", [customerParam]⟩,
       strCodes "/v1/customers/\x7bcustomer\x7d", .mDelete⟩
      (.delCall (strCodes "customers") (some (.vStr (strCodes "cus_1")))
        [(strCodes "email", .vStr (strCodes "a@b.com"))])
      (some (.vStr (strCodes "cus_1")))
      (by decide) (by decide) rfl
  · exact c3_amended_no_missing_id_check.2 exampleDoc exampleKnown
      (strCodes "DeleteSubscriptionsSubscription") []
      ⟨⟨strCodes "DeleteSubscriptionsSubscription", [subsParam]⟩,
       strCodes "/v1/subscriptions/\x7bsubscription_exposed_id\x7d", .mDelete⟩
      (by decide) rfl (by decide) rfl

/-- C6 counterexample: the runtime classifies `balanceHistory` as a
singleton (selecting Retrieve for `GetBalanceHistory`) although it is
neither in the fixed singleton set nor designated by any
verb/shape/operationId combination — the generator, whose rule is exactly
that fixed set plus the GetAccount combination, classifies the same
resource as a collection and selects List. -/
theorem c6_counterexample :
    runtimeSingleton (strCodes "balanceHistory") = true
    ∧ strCodes "balanceHistory" ∉ singletonResources
    ∧ genSingleton (strCodes "balanceHistory") .mGet false
        (strCodes "GetBalanceHistory") = false
    ∧ invokeStripeByOperationId exampleDoc exampleKnown
        (strCodes "GetBalanceHistory") []
      = .ok (.retrieve0 (strCodes "balanceHistory") [])
    ∧ generateOperationWrapper getBalanceHistoryGenOp
        = .listI (strCodes "balanceHistory")
    ∧ callAction (.retrieve0 (strCodes "balanceHistory") []) = .aRetrieve
    ∧ genAction (.listI (strCodes "balanceHistory")) = some .aList := by
  refine ⟨by decide, by decide, by decide, rfl, rfl, rfl, rfl⟩

/-- C6 amended: the code-generation path classifies a resource as a
singleton iff its resolved name is in the fixed set (balance, account) or
the GetAccount collection-shape combination applies; the runtime path
instead classifies a resource as a singleton iff its parsed name does not
end in `s` (the balance/account disjuncts being redundant).  `GetAccount`
on the collection shape resolves to the singleton account view in both
paths (runtime resource `account`, generator `accounts`) with action
Retrieve. -/
theorem c6_amended_singleton_rules :
    (∀ r : List Nat, runtimeSingleton r = !endsWithS r)
    ∧ (∀ (r : List Nat) (m : HttpMethod) (d : Bool) (o : List Nat),
        genSingleton r m d o
          = (decide (r ∈ singletonResources)
             || (decide (r = strCodes "accounts") && decide (m = .mGet)
                 && !d && decide (o = strCodes "GetAccount"))))
    ∧ invokeStripeByOperationId exampleDoc exampleKnown
        (strCodes "GetAccount") []
      = .ok (.retrieve0 (strCodes "account") [])
    ∧ generateOperationWrapper getAccountGenOp
        = .retrieve0I (strCodes "accounts")
    ∧ callAction (.retrieve0 (strCodes "account") []) = .aRetrieve
    ∧ genAction (.retrieve0I (strCodes "accounts")) = some .aRetrieve := by
  refine ⟨?_, fun r m d o => rfl, rfl, rfl, rfl, rfl⟩
  intro r
  by_cases h : endsWithS r = true
  · have hb : ¬ r = strCodes "balance" := by
      intro e; rw [e] at h; exact absurd h (by decide)
    have ha : ¬ r = strCodes "account" := by
      intro e; rw [e] at h; exact absurd h (by decide)
    unfold runtimeSingleton
    rw [h]
    simp [hb, ha]
  · have h' : endsWithS r = false := by
      cases hh : endsWithS r with
      | false => rfl
      | true => exact absurd hh h
    unfold runtimeSingleton
    rw [h']
    simp

theorem handleInvoke_ok_args (backend : Backend) (doc : SpecDoc)
    (known : List (List Nat)) (args : RawArgs) (opId : List Nat)
    (params : Option Bag)
    (hp : parseInvokeArgs args = .ok (opId, params)) :
    handleInvokeApiEndpointTool backend doc known args
      = invokePayload backend doc known opId (params.getD []) := by
  unfold handleInvokeApiEndpointTool
  rw [hp]

theorem backendPayload_cases (backend : Backend) (call : BackendCall) :
    (∃ v, backendPayload backend call = .success v)
    ∨ (∃ m, backendPayload backend call = .errorText m) := by
  unfold backendPayload
  cases hb : backend call with
  | error m => exact Or.inr ⟨_, rfl⟩
  | ok v => exact Or.inl ⟨_, rfl⟩

theorem invokePayload_cases (backend : Backend) (doc : SpecDoc)
    (known : List (List Nat)) (opId : List Nat) (bag : Bag) :
    (∃ v, invokePayload backend doc known opId bag = .success v)
    ∨ (∃ m, invokePayload backend doc known opId bag = .errorText m) := by
  unfold invokePayload
  cases hinv : invokeStripeByOperationId doc known opId bag with
  | error e => exact Or.inr ⟨_, rfl⟩
  | ok call => exact backendPayload_cases backend call

/-- C8: for every invoke request (any raw arguments) the invoke handler
returns a structured payload — an opaque success payload or an error
payload carrying a message — and never a raised fault; handling a sequence
of requests is element-wise, so one failed resolution does not change the
outcome of any subsequent, independent call (concretely: a failing request
followed by a succeeding one yields an error payload then a success
payload). -/
theorem c8_handler_structured_and_independent :
    (∀ (backend : Backend) (doc : SpecDoc) (known : List (List Nat))
        (args : RawArgs),
        (∃ v, handleInvokeApiEndpointTool backend doc known args = .success v)
        ∨ (∃ m, handleInvokeApiEndpointTool backend doc known args
            = .errorText m))
    ∧ (∀ (backend : Backend) (doc : SpecDoc) (known : List (List Nat))
        (reqs : List RawArgs) (i : Nat),
        (processCalls backend doc known reqs).get? i
          = (reqs.get? i).map (handleInvokeApiEndpointTool backend doc known))
    ∧ processCalls okBackend exampleDoc exampleKnown [badReq, goodReq]
        = [.errorText (strCodes "Error calling Stripe API: "
            ++ errMessage (.operationNotFound (strCodes "GetNope"))),
           .success .vNull] := by
  refine ⟨?_, ?_, rfl⟩
  · intro backend doc known args
    cases hp : parseInvokeArgs args with
    | error m =>
      have h : handleInvokeApiEndpointTool backend doc known args
          = .errorText (strCodes "Error calling Stripe API: " ++ m) := by
        unfold handleInvokeApiEndpointTool
        rw [hp]
      exact Or.inr ⟨_, h⟩
    | ok pr =>
      obtain ⟨opId, params⟩ := pr
      rw [handleInvoke_ok_args backend doc known args opId params hp]
      exact invokePayload_cases backend doc known opId (params.getD [])
  · intro backend doc known reqs i
    unfold processCalls
    exact List.get?_map _ _ _

/-- C10: runtime invocation never mutates the caller's parameter object —
the identifier key is deleted only from the internal shallow copy, so
whatever object the caller's reference held before the call, it holds the
very same mapping afterwards. -/
theorem c10_no_caller_mutation (doc : SpecDoc) (known : List (List Nat))
    (opId : List Nat) (callerRef : Nat) (s0 : Store) (b0 : Bag)
    (hcaller : storeGet s0 callerRef = some b0) :
    storeGet (invokeHeap doc known opId callerRef s0).1 callerRef
      = some b0 := by
  have hmem := storeGet_mem s0 callerRef b0 hcaller
  have hlt : callerRef < freshRef s0 := mem_lt_freshRef _ _ hmem
  have hne : freshRef s0 ≠ callerRef := by omega
  have h1 : ∀ bb : Bag,
      storeGet ((freshRef s0, bb) :: s0) callerRef = some b0 := by
    intro bb
    rw [storeGet_cons_ne _ _ _ _ hne]
    exact hcaller
  have h2 : ∀ bb bb2 : Bag,
      storeGet (storeSet ((freshRef s0, bb) :: s0) (freshRef s0) bb2)
        callerRef = some b0 := by
    intro bb bb2
    rw [storeGet_storeSet_ne _ _ _ _ hne]
    exact h1 bb
  cases hfind : findOperationById doc opId with
  | none => simp only [invokeHeap, hfind]; exact hcaller
  | some found =>
    obtain ⟨op, path, meth⟩ := found
    simp only [invokeHeap, hfind]
    by_cases hk : (parseOp opId).mainResource ∈ known
    · rw [if_neg (not_not_intro hk)]
      cases meth <;>
        simp only [allocObj, idBranch] <;>
        (try split_ifs) <;>
        first
          | exact h2 _ _
          | exact h1 _
    · rw [if_pos hk]
      exact hcaller

/-- C10 witness: invoking the subscriptions delete with the caller's bag
held behind reference 0 leaves that object unchanged, identifier key
included. -/
theorem c10_witness :
    storeGet (invokeHeap exampleDoc exampleKnown
        (strCodes "DeleteSubscriptionsSubscription") 0 [(0, subsBag)]).1 0
      = some subsBag :=
  c10_no_caller_mutation exampleDoc exampleKnown
    (strCodes "DeleteSubscriptionsSubscription") 0 [(0, subsBag)] subsBag
    (by decide)

end StripeMcp
